import Mathlib

/-!
Shallow embedding of the audio capture core of `src/audiomodel.py`
(class `AudioRecorder`).  Samples are modelled as integers (the code never
computes with sample values, it only moves them); a block is the list of its
frames for the single capture channel (`_channels = min(max_input_channels, 1)`);
elapsed time is carried as the exact rational value of the binary64 double
the program holds, with the float addition of the capture callback modelled
by explicit binary64 rounding of the exact sum (the other operations on
`_rectime` — resetting to 0.0, adding 0.0, returning -1 — are float-exact);
the file system is an association list from rendered path strings to file
contents.  Byte counts produced by `sys.getsizeof` are modelled as
parameters, constrained only where the claims need it (they are always
positive).
-/

set_option allowUnsafeReducibility true in
attribute [semireducible] Rat.add Rat.mul Rat.sub Rat.inv

namespace Audiomodel

/-- One entry of the sound block queue as seen by `_fuse_recording_q`:
`good d` is a block whose slice assignment into the output succeeds and writes
the samples `d`; `bad` is a block whose extraction raises (for example a shape
mismatch), after `get` has already removed it from the queue. -/
inductive QBlock where
  | good (d : List Int)
  | bad
deriving DecidableEq

/-- Overwrite `buf` at position `pos` with `xs`
(the numpy slice assignment `audio_np[pos:pos+len] = xs`). -/
def writeAt (buf : List Int) (pos : Nat) (xs : List Int) : List Int :=
  buf.take pos ++ xs ++ buf.drop (pos + xs.length)

/-- The copy loop of `_fuse_recording_q` (lines 132-138): write each block at
the current data pointer and advance the pointer by `block_size + 1` on
success; a failing block is skipped without advancing the pointer. -/
def fuseLoop (bs : Nat) : List QBlock → Nat → List Int → List Int
  | [], _, buf => buf
  | QBlock.good d :: rest, ptr, buf => fuseLoop bs rest (ptr + (bs + 1)) (writeAt buf ptr d)
  | QBlock.bad :: rest, ptr, buf => fuseLoop bs rest ptr buf

/-- The method `_fuse_recording_q` (lines 116-140): returns `none` (Python
`None`) on an empty queue; otherwise preallocates `(block_size + 1) * nblocks`
zero rows and runs the copy loop over the queued blocks in FIFO order. -/
def fuse_recording_q (bs : Nat) (q : List QBlock) : Option (List Int) :=
  if q.isEmpty then none
  else some (fuseLoop bs q 0 (List.replicate ((bs + 1) * q.length) 0))

/-- The sample data of the successfully extracted blocks, in queue order. -/
def goodDatas : List QBlock → List (List Int)
  | [] => []
  | QBlock.good d :: rest => d :: goodDatas rest
  | QBlock.bad :: rest => goodDatas rest

/-- Concatenation with the one zero gap row that the copy loop leaves after
each successfully written block. -/
def gapJoin (gs : List (List Int)) : List Int :=
  (gs.map (fun d => d ++ [0])).flatten

/-- A `pathlib.Path` with one parent directory component, a stem and a suffix
(the suffix carries its leading dot, as in `pathlib`). -/
structure FPath where
  parent : String
  stem : String
  suffix : String
deriving DecidableEq

/-- Rendering of the path as `str(path)`: `pathlib` joins the parent directory
and the file name with a path separator. -/
def FPath.render (p : FPath) : String :=
  p.parent ++ "/" ++ p.stem ++ p.suffix

/-- The method `Path.with_suffix`: replace the suffix. -/
def FPath.with_suffix (p : FPath) (s : String) : FPath :=
  { p with suffix := s }

/-- The file system: rendered path strings with file contents. -/
structure Disk where
  files : List (String × List Int)
deriving DecidableEq

/-- The query `Path.is_file()`. -/
def Disk.isFile (d : Disk) (path : String) : Bool :=
  d.files.any (fun f => f.1 == path)

/-- Appending at the end of an existing sound file (`sf.SoundFile` opened for
update, seek to the end, write). -/
def Disk.appendFile (d : Disk) (path : String) (data : List Int) : Disk :=
  ⟨d.files.map (fun f => if f.1 == path then (f.1, f.2 ++ data) else f)⟩

/-- Creation of a fresh file (`sf.write`), truncating any file at that path. -/
def Disk.writeNew (d : Disk) (path : String) (data : List Int) : Disk :=
  ⟨(path, data) :: d.files.filter (fun f => f.1 != path)⟩

/-- Python `str.casefold` restricted to the ASCII names involved here:
lower-case every character. -/
def asciiLower (s : String) : String :=
  ⟨s.data.map Char.toLower⟩

/-- Python `str.split` for a one-character separator, over the character list
of the string: the result always has one more group than there are separator
occurrences (so a leading separator yields a leading empty group). -/
def splitChars (sep : Char) : List Char → List (List Char)
  | [] => [[]]
  | c :: cs =>
    let rest := splitChars sep cs
    if c = sep then [] :: rest
    else
      match rest with
      | [] => [[c]]
      | g :: gs => (c :: g) :: gs

/-- Python `s.split(sep)` as a list of strings. -/
def pySplit (s : String) (sep : Char) : List String :=
  (splitChars sep s.data).map (fun cs => ⟨cs⟩)

/-- Scale a positive rational into the binade of 53-bit significands
(4503599627370496 = 2 pow 52 up to, excluding, 9007199254740992 = 2 pow 53),
carrying the scaling factor along, so that the input equals the scaled value
divided by the factor.  Fuel-bounded; 200 steps cover every magnitude the
elapsed-time bookkeeping can reach. -/
def toBinade : Nat → ℚ → ℚ → ℚ × ℚ
  | 0, q, p => (q, p)
  | fuel + 1, q, p =>
    if q.num < 4503599627370496 * (q.den : Int) then toBinade fuel (q * 2) (p * 2)
    else if 9007199254740992 * (q.den : Int) ≤ q.num then toBinade fuel (q / 2) (p / 2)
    else (q, p)

/-- Round a positive rational to 53 significant bits, to nearest, ties to
even: the IEEE-754 binary64 rounding for the normal range.  The comparisons
of the fractional part with one half are expressed on the numerator and the
(always positive) denominator. -/
def roundPos (q : ℚ) : ℚ :=
  let sp := toBinade 200 q 1
  let a : ℤ := sp.1.floor
  let frac : ℚ := sp.1 - (a : ℚ)
  let m : ℤ :=
    if 2 * frac.num < (frac.den : Int) then a
    else if (frac.den : Int) < 2 * frac.num then a + 1
    else if a % 2 = 0 then a else a + 1
  (m : ℚ) / sp.2

/-- Binary64 rounding of a rational, extended to zero and to negatives
(overflow and subnormals are far outside the range this program reaches). -/
def round64 (q : ℚ) : ℚ :=
  if q = 0 then 0
  else if q.num < 0 then -roundPos (-q)
  else roundPos q

/-- The Python float addition `x + y` on the rationals that represent
binary64 doubles: the exact sum, rounded back to binary64. -/
def fadd64 (x y : ℚ) : ℚ :=
  round64 (x + y)

/-- Keys of `sf.available_formats()`: the container format registry of the
external soundfile library (upper-case keys, matched case-insensitively by
`_save`). -/
def sf_available_formats : List String :=
  ["WAV", "AIFF", "AU", "RAW", "FLAC", "OGG", "CAF", "W64", "RF64", "MP3"]

/-- The default file format pair of `__init__` (line 66). -/
def default_fformat : List String := ["wav", "WAV"]

/-- The mutable attributes of `AudioRecorder` that the capture, memory
management and save paths read and write, together with the construction-time
configuration.  `mem_baseline` is the constant `sys.getsizeof` of the (always
content-independent) queue object measured in `__init__` (line 51) and
re-measured after every flush (line 105). -/
structure Recorder where
  _rec : Bool
  filepath : Option FPath
  q : List QBlock
  mem_size : Nat
  rectime : ℚ
  prev_ab : Option (List Int)
  partition_ctr : Nat
  max_memory : Int
  block_length : ℚ
  block_size : Nat
  mem_baseline : Nat
  partition : Bool
deriving DecidableEq

/-- The state set up by `__init__` (the device query and the thread handles
are external; `block_size = int(samplerate * block_len)`). -/
def initRecorder (samplerate : Nat) (block_len : ℚ) (max_memeory : Int)
    (partition : Bool) (baseline : Nat) : Recorder :=
  { _rec := false
    filepath := none
    q := []
    mem_size := baseline
    rectime := 0
    prev_ab := none
    partition_ctr := 0
    max_memory := max_memeory
    block_length := block_len
    block_size := ((samplerate : ℚ) * block_len).floor.toNat
    mem_baseline := baseline
    partition := partition }

/-- The method `_record_callback` (lines 71-78).  `indataSize` stands for
`sys.getsizeof(indata) + indata.nbytes`; a truthy `status` is printed to
stderr and has no other effect; the two `indata.copy()` calls are implicit in
the value semantics of lists.  The increment of `_rectime` is the Python
float addition of `_block_length`, modelled by binary64 rounding of the
exact sum. -/
def _record_callback (r : Recorder) (indata : List Int) (indataSize : Nat)
    (_status : Bool) : Recorder :=
  { r with
    mem_size := r.mem_size + indataSize
    prev_ab := some indata
    q := r.q ++ [QBlock.good indata]
    rectime := fadd64 r.rectime r.block_length }

/-- Iterated capture callbacks, one per delivered block paired with its
measured size. -/
def run_callbacks (r : Recorder) (blocks : List (List Int × Nat)) : Recorder :=
  blocks.foldl (fun s b => _record_callback s b.1 b.2 false) r

/-- Errors that `_save` can raise.  `keyErrorSf` models the exception actually
raised at lines 170-172: the IOError message template contains the named
replacement field sf but `format` is given one positional argument, so
building the message raises `KeyError` before any IOError is constructed.
`noneData` models soundfile rejecting `None` audio data (`_save` receives
`None` whenever `_fuse_recording_q` found an empty queue). -/
inductive SaveErr where
  | keyErrorSf
  | noneData
deriving DecidableEq

/-- Result of `_save`: whether the format fallback warning was issued, the
recorder and the disk after the call, and the exception if one propagates. -/
structure SaveRes where
  warned : Bool
  r : Recorder
  disk : Disk
  err : Option SaveErr
deriving DecidableEq

/-- Tail of `_save` (lines 173-179): partition naming and `sf.write`.  In
partition mode the file name is built, exactly as in the source, by string
concatenation of `str(parent)`, the stem, the parenthesised counter and the
suffix, with no path separator; the counter is incremented before the write.
The container format argument of `sf.write` does not change the byte content
we model. -/
def saveNewFile (r : Recorder) (fp : FPath) (d : Disk) (audio : Option (List Int))
    (_fmt : String) (warned : Bool) : SaveRes :=
  let pr : String × Recorder :=
    if r.partition then
      (fp.parent ++ fp.stem ++ "(" ++ toString r.partition_ctr ++ ")" ++ fp.suffix,
        { r with partition_ctr := r.partition_ctr + 1 })
    else
      (fp.render, r)
  match audio with
  | some data => ⟨warned, pr.2, Disk.writeNew d pr.1 data, none⟩
  | none => ⟨warned, pr.2, d, some SaveErr.noneData⟩

/-- The method `_save` (lines 142-179). -/
def _save (r : Recorder) (d : Disk) (audio : Option (List Int)) : SaveRes :=
  match r.filepath with
  | none => ⟨false, r, d, none⟩
  | some fp0 =>
    if d.isFile fp0.render && !r.partition then
      match audio with
      | some data => ⟨false, r, Disk.appendFile d fp0.render data, none⟩
      | none => ⟨false, r, d, some SaveErr.noneData⟩
    else
      match sf_available_formats.find?
          (fun key => asciiLower key == asciiLower ((pySplit fp0.suffix '.').getLastD "")) with
      | some fmt => saveNewFile r fp0 d audio fmt false
      | none =>
        let fp1 := fp0.with_suffix ("." ++ default_fformat.getD 0 "")
        let r1 := { r with filepath := some fp1 }
        if d.isFile fp1.render then
          ⟨true, r1, d, some SaveErr.keyErrorSf⟩
        else
          saveNewFile r1 fp1 d audio (default_fformat.getD 1 "") true

/-- Result of `_manage_record`: `ret` is the Python return value (`none` when
`_save` raised and nothing is returned). -/
structure MRes where
  ret : Option Bool
  warned : Bool
  r : Recorder
  disk : Disk
  err : Option SaveErr
deriving DecidableEq

/-- Continuation of `_manage_record` after `_save` returned (lines 105-106):
on a normal return the memory estimate is re-measured on the (content
independent) queue object and `True` is returned; an exception propagates and
nothing is returned. -/
def manageAfterSave (s : SaveRes) : MRes :=
  match s.err with
  | some e => ⟨none, s.warned, s.r, s.disk, some e⟩
  | none => ⟨some true, s.warned, { s.r with mem_size := s.r.mem_baseline }, s.disk, none⟩

/-- The method `_manage_record` (lines 93-108).  Fusing drains every queued
block; the memory estimate is reset to the queue object size only after a
successful save. -/
def _manage_record (r : Recorder) (d : Disk) (now : Bool) : MRes :=
  if decide ((r.mem_size : Int) ≥ r.max_memory) || now then
    manageAfterSave (_save { r with q := [] } d (fuse_recording_q r.block_size r.q))
  else
    ⟨some false, false, r, d, none⟩

/-- The method `start_recording` (lines 181-228): state effects only (the
stream, the memory thread and the auto-stop timer are external).  A session
already running returns immediately, before any assignment. -/
def start_recording (r : Recorder) (filepath : Option FPath) (_max_time : ℚ) : Recorder :=
  if r._rec then r
  else
    { r with filepath := filepath, _rec := true, rectime := r.rectime + 0 }

/-- Result of `stop_recording`. -/
structure StopRes where
  r : Recorder
  disk : Disk
  warned : Bool
  err : Option SaveErr
deriving DecidableEq

/-- Continuation of `stop_recording` after the forced flush (lines 241-242):
the two resets run only when `_manage_record` returned normally; an exception
propagates past them. -/
def stopAfterManage (m : MRes) : StopRes :=
  match m.err with
  | some e => ⟨m.r, m.disk, m.warned, some e⟩
  | none => ⟨{ m.r with prev_ab := none, rectime := 0 }, m.disk, m.warned, none⟩

/-- The method `stop_recording` (lines 230-242): clear the recording flag,
cancel the timer, stop the stream and join the memory thread (external),
force a synchronous flush, then reset the last captured block and the elapsed
time.  An exception from the flush propagates and skips the two resets. -/
def stop_recording (r : Recorder) (d : Disk) : StopRes :=
  if r._rec then
    stopAfterManage (_manage_record { r with _rec := false } d true)
  else
    ⟨r, d, false, none⟩

/-- The method `is_recording` (lines 244-246). -/
def is_recording (r : Recorder) : Bool := r._rec

/-- The method `get_sq_mem` (lines 248-253). -/
def get_sq_mem (r : Recorder) : Nat := r.mem_size

/-- The method `get_rec_time` (lines 255-262): the elapsed time while
recording, the sentinel -1 otherwise. -/
def get_rec_time (r : Recorder) : ℚ :=
  if r._rec then r.rectime else -1

/-- One transition of the recorder: a capture callback (with the positive
`sys.getsizeof` based size of the delivered block), a memory manager tick, a
start or a stop. -/
inductive Step : Recorder × Disk → Recorder × Disk → Prop where
  | callback (r : Recorder) (d : Disk) (indata : List Int) (sz : Nat) (st : Bool)
      (hsz : 0 < sz) : Step (r, d) (_record_callback r indata sz st, d)
  | manage (r : Recorder) (d : Disk) (now : Bool) :
      Step (r, d) ((_manage_record r d now).r, (_manage_record r d now).disk)
  | start (r : Recorder) (d : Disk) (fp : Option FPath) (mt : ℚ) :
      Step (r, d) (start_recording r fp mt, d)
  | stop (r : Recorder) (d : Disk) :
      Step (r, d) ((stop_recording r d).r, (stop_recording r d).disk)

/-- Reachability from an initial configuration. -/
inductive Reach (s0 : Recorder × Disk) : Recorder × Disk → Prop where
  | refl : Reach s0 s0
  | step (s t : Recorder × Disk) : Reach s0 s → Step s t → Reach s0 t

/-- The well-formed partition path the specification describes: the target
path with the partition index inserted between the stem and the suffix
(rendered with the path separator that `pathlib` would use). -/
def partitionPathSpec (fp : FPath) (ctr : Nat) : String :=
  FPath.render { fp with stem := fp.stem ++ "(" ++ toString ctr ++ ")" }

/-! Concrete states used to evaluate the code on specific inputs. -/

/-- A session on the unsupported target rec/out.xyz with one captured block
of two samples (size measurement 40 bytes). -/
def cexC2r : Recorder :=
  _record_callback (start_recording (initRecorder 2 1 (-1) false 100)
    (some ⟨"rec", "out", ".xyz"⟩) (-1)) [5, 5] 40 false

/-- A disk already holding the fallback-renamed target rec/out.wav. -/
def cexC2d : Disk := ⟨[("rec/out.wav", [0])]⟩

/-- An active partitioned session on target rec/out.wav used to evaluate the
partition naming of the save path. -/
def cexC3r : Recorder :=
  { initRecorder 2 1 0 true 100 with _rec := true, filepath := some ⟨"rec", "out", ".wav"⟩ }

/-- An active single-file session on the unsupported target rec/out.xyz. -/
def cexC4r : Recorder :=
  { initRecorder 2 1 0 false 100 with _rec := true, filepath := some ⟨"rec", "out", ".xyz"⟩ }

/-- A disk already holding rec/out.wav, the path the fallback rewrite
produces. -/
def cexC4d : Disk := ⟨[("rec/out.wav", [0])]⟩

/-- A partitioned session on target rec/out.wav with one captured block. -/
def cexC5r : Recorder :=
  _record_callback (start_recording (initRecorder 2 1 (-1) true 100)
    (some ⟨"rec", "out", ".wav"⟩) (-1)) [5, 5] 40 false

/-- A session over its threshold (0) on the unsupported target rec/out.xyz
with one captured block (estimate 140 against baseline 100). -/
def cexC6r : Recorder :=
  _record_callback (start_recording (initRecorder 2 1 0 false 100)
    (some ⟨"rec", "out", ".xyz"⟩) (-1)) [5, 5] 40 false

/-- A disk already holding the fallback-renamed target rec/out.wav. -/
def cexC6d : Disk := ⟨[("rec/out.wav", [0])]⟩

/-- The binary64 double nearest 0.05, the default block length of
`__init__`. -/
def fl005 : ℚ := 3602879701896397 / 2 ^ 56

/-- A recorder constructed with the default block length 0.05 (samplerate
20, so one-frame blocks). -/
def cexC7r : Recorder := initRecorder 20 fl005 (-1) false 100

/-- Six delivered one-frame blocks with their measured sizes. -/
def cexC7blocks : List (List Int × Nat) :=
  [([5], 40), ([5], 40), ([5], 40), ([5], 40), ([5], 40), ([5], 40)]

/-- An idle recorder capturing to nowhere, its estimate at the baseline. -/
def wIdle : Recorder := initRecorder 2 1 (-1) false 100

/-- The same recorder with an active session and no target path. -/
def wActive : Recorder := { initRecorder 2 1 (-1) false 100 with _rec := true }

/-- An active recorder whose estimate (100) meets its threshold (0). -/
def wOverThreshold : Recorder := { initRecorder 2 1 0 false 100 with _rec := true }

/-- An active recorder whose estimate (100) is below its threshold (200). -/
def wUnderThreshold : Recorder := { initRecorder 2 1 200 false 100 with _rec := true }

/-! Lemmas about the fusion loop. -/

lemma goodDatas_length_le (q : List QBlock) : (goodDatas q).length ≤ q.length := by
  induction q with
  | nil => simp [goodDatas]
  | cons b rest ih => cases b <;> simp [goodDatas] <;> omega

lemma mem_goodDatas (q : List QBlock) (d : List Int) (h : d ∈ goodDatas q) :
    QBlock.good d ∈ q := by
  induction q with
  | nil => simp [goodDatas] at h
  | cons b rest ih =>
    cases b with
    | good e =>
      rw [goodDatas] at h
      rcases List.mem_cons.mp h with h1 | h2
      · exact h1 ▸ List.mem_cons_self _ _
      · exact List.mem_cons_of_mem _ (ih h2)
    | bad =>
      rw [goodDatas] at h
      exact List.mem_cons_of_mem _ (ih h)

lemma gapJoin_nil : gapJoin [] = [] := rfl

lemma gapJoin_cons (d : List Int) (gs : List (List Int)) :
    gapJoin (d :: gs) = (d ++ [0]) ++ gapJoin gs := by
  simp [gapJoin]

lemma gapJoin_length (bs : Nat) (gs : List (List Int)) (h : ∀ d ∈ gs, d.length = bs) :
    (gapJoin gs).length = (bs + 1) * gs.length := by
  induction gs with
  | nil => simp [gapJoin]
  | cons d rest ih =>
    rw [gapJoin_cons]
    simp only [List.length_append, List.length_cons, List.length_nil]
    rw [ih (fun e he => h e (List.mem_cons_of_mem _ he)), h d (List.mem_cons_self _ _)]
    ring

lemma drop_append_replicate (C : List Int) (m k : Nat) (h : k ≤ m) :
    (C ++ List.replicate m (0 : Int)).drop (C.length + k) = List.replicate (m - k) 0 := by
  have hm : m = k + (m - k) := by omega
  conv_lhs => rw [hm]
  rw [List.replicate_add, ← List.append_assoc, List.drop_left' (by simp)]

lemma writeAt_prefix (C d : List Int) (m : Nat) (h : d.length ≤ m) :
    writeAt (C ++ List.replicate m 0) C.length d =
      (C ++ d) ++ List.replicate (m - d.length) 0 := by
  unfold writeAt
  rw [List.take_left, drop_append_replicate C m d.length h, List.append_assoc]

/-- The shape of the buffer the copy loop of `_fuse_recording_q` produces:
after a written prefix `C`, the successfully extracted blocks appear in FIFO
order, each followed by one untouched zero row, and everything behind the last
written row keeps its preallocated zeros. -/
lemma fuseLoop_structure (bs : Nat) (q : List QBlock) :
    ∀ (C : List Int) (r : Nat),
      (∀ d, QBlock.good d ∈ q → d.length = bs) →
      fuseLoop bs q C.length (C ++ List.replicate ((bs + 1) * q.length + r) 0) =
        (C ++ gapJoin (goodDatas q)) ++
          List.replicate ((bs + 1) * (q.length - (goodDatas q).length) + r) 0 := by
  induction q with
  | nil =>
    intro C r _
    simp [fuseLoop, goodDatas, gapJoin]
  | cons b rest ih =>
    intro C r h
    cases b with
    | good d =>
      have hd : d.length = bs := h d (List.mem_cons_self _ _)
      have hble : d.length ≤ (bs + 1) * (rest.length + 1) + r := by
        have : bs ≤ (bs + 1) * (rest.length + 1) := by
          calc bs ≤ bs + 1 := Nat.le_succ bs
          _ ≤ (bs + 1) * (rest.length + 1) := Nat.le_mul_of_pos_right _ (Nat.succ_pos _)
        omega
      have hm : (bs + 1) * (rest.length + 1) + r - d.length =
          (bs + 1) * rest.length + r + 1 := by
        have hexp : (bs + 1) * (rest.length + 1) = (bs + 1) * rest.length + (bs + 1) :=
          Nat.mul_succ _ _
        omega
      have hsplit : List.replicate ((bs + 1) * rest.length + r + 1) (0 : Int) =
          [0] ++ List.replicate ((bs + 1) * rest.length + r) 0 := by
        have : (bs + 1) * rest.length + r + 1 = 1 + ((bs + 1) * rest.length + r) := by omega
        rw [this, List.replicate_add]
        rfl
      have hlen2 : C.length + (bs + 1) = (C ++ d ++ [0]).length := by
        simp [hd]
      rw [fuseLoop, List.length_cons, writeAt_prefix C d _ hble, hm, hsplit,
        goodDatas, gapJoin_cons]
      have hassoc : (C ++ d) ++ ([0] ++ List.replicate ((bs + 1) * rest.length + r) 0) =
          (C ++ d ++ [0]) ++ List.replicate ((bs + 1) * rest.length + r) 0 := by
        simp [List.append_assoc]
      rw [hassoc, hlen2,
        ih (C ++ d ++ [0]) r (fun e he => h e (List.mem_cons_of_mem _ he))]
      have hsub : rest.length + 1 - (d :: goodDatas rest).length =
          rest.length - (goodDatas rest).length := by
        simp only [List.length_cons]
        omega
      rw [hsub]
      simp [List.append_assoc, gapJoin_cons]
    | bad =>
      have hk := goodDatas_length_le rest
      have harith : (bs + 1) * (rest.length + 1) + r =
          (bs + 1) * rest.length + (r + (bs + 1)) := by
        rw [Nat.mul_succ]
        omega
      have harith2 : (bs + 1) * (rest.length + 1 - (goodDatas rest).length) + r =
          (bs + 1) * (rest.length - (goodDatas rest).length) + (r + (bs + 1)) := by
        have hs : rest.length + 1 - (goodDatas rest).length =
            (rest.length - (goodDatas rest).length) + 1 := by omega
        rw [hs, Nat.mul_succ]
        omega
      rw [fuseLoop, List.length_cons, harith,
        ih C (r + (bs + 1)) (fun e he => h e (List.mem_cons_of_mem _ he)),
        goodDatas, harith2]

/-! Lemmas about the state machine. -/

/-- The save path only ever touches the target path and the partition
counter: every other recorder attribute survives `_save` unchanged. -/
lemma save_preserves (r : Recorder) (d : Disk) (a : Option (List Int)) :
    (_save r d a).r.mem_size = r.mem_size ∧
    (_save r d a).r.mem_baseline = r.mem_baseline ∧
    (_save r d a).r.q = r.q ∧
    (_save r d a).r._rec = r._rec ∧
    (_save r d a).r.rectime = r.rectime ∧
    (_save r d a).r.prev_ab = r.prev_ab ∧
    (_save r d a).r.block_length = r.block_length ∧
    (_save r d a).r.block_size = r.block_size ∧
    (_save r d a).r.max_memory = r.max_memory ∧
    (_save r d a).r.partition = r.partition := by
  rcases a with _ | data <;> unfold _save saveNewFile <;>
    rcases r.filepath with _ | fp0 <;> (repeat' split) <;> simp_all <;>
    (repeat' split) <;> simp_all

/-- The memory manager preserves the baseline measurement and never lets the
estimate drop below it. -/
lemma manage_memInv (r : Recorder) (d : Disk) (now : Bool) :
    (_manage_record r d now).r.mem_baseline = r.mem_baseline ∧
    (r.mem_baseline ≤ r.mem_size →
      r.mem_baseline ≤ (_manage_record r d now).r.mem_size) := by
  unfold _manage_record manageAfterSave
  split
  · have hs := save_preserves { r with q := [] } d (fuse_recording_q r.block_size r.q)
    split
    · exact ⟨hs.2.1, fun h => le_of_le_of_eq h hs.1.symm⟩
    · exact ⟨hs.2.1, fun _ => le_of_eq hs.2.1.symm⟩
  · exact ⟨rfl, fun h => h⟩

/-- Stopping preserves the baseline measurement and never lets the estimate
drop below it. -/
lemma stop_memInv (r : Recorder) (d : Disk) :
    (stop_recording r d).r.mem_baseline = r.mem_baseline ∧
    (r.mem_baseline ≤ r.mem_size →
      r.mem_baseline ≤ (stop_recording r d).r.mem_size) := by
  unfold stop_recording stopAfterManage
  split
  · have hm := manage_memInv { r with _rec := false } d true
    split
    · exact hm
    · exact hm
  · exact ⟨rfl, fun h => h⟩

/-- Starting a session does not touch the memory bookkeeping. -/
lemma start_memInv (r : Recorder) (fp : Option FPath) (mt : ℚ) :
    (start_recording r fp mt).mem_baseline = r.mem_baseline ∧
    (start_recording r fp mt).mem_size = r.mem_size := by
  unfold start_recording
  split <;> exact ⟨rfl, rfl⟩

/-- The memory invariant: the baseline measured at construction is fixed and
the running estimate never falls below it. -/
def MemInv (B : Nat) (s : Recorder × Disk) : Prop :=
  s.1.mem_baseline = B ∧ B ≤ s.1.mem_size

lemma step_memInv (B : Nat) (s t : Recorder × Disk) (hst : Step s t)
    (h : MemInv B s) : MemInv B t := by
  cases hst with
  | callback r d indata sz st hsz =>
    refine ⟨h.1, ?_⟩
    have : r.mem_size ≤ (_record_callback r indata sz st).mem_size := by
      unfold _record_callback
      exact Nat.le_add_right _ _
    exact le_trans h.2 this
  | manage r d now =>
    have hm := manage_memInv r d now
    exact ⟨h.1 ▸ hm.1, h.1 ▸ hm.2 (h.1 ▸ h.2)⟩
  | start r d fp mt =>
    have hm := start_memInv r fp mt
    exact ⟨hm.1.trans h.1, hm.2 ▸ h.2⟩
  | stop r d =>
    have hm := stop_memInv r d
    exact ⟨h.1 ▸ hm.1, h.1 ▸ hm.2 (h.1 ▸ h.2)⟩

lemma reach_memInv (B : Nat) (s0 s : Recorder × Disk) (hr : Reach s0 s)
    (h0 : MemInv B s0) : MemInv B s := by
  induction hr with
  | refl => exact h0
  | step s t _ hstep ih => exact step_memInv B s t hstep ih

/-- Elapsed-time bookkeeping of iterated capture callbacks: the N-fold float
accumulation of the block length. -/
lemma run_callbacks_rectime (blocks : List (List Int × Nat)) (r : Recorder) :
    (run_callbacks r blocks).rectime =
      (fun t => fadd64 t r.block_length)^[blocks.length] r.rectime := by
  induction blocks generalizing r with
  | nil => rfl
  | cons b rest ih =>
    have hstep : run_callbacks r (b :: rest) =
        run_callbacks (_record_callback r b.1 b.2 false) rest := rfl
    rw [hstep, ih, List.length_cons, Function.iterate_succ_apply]
    rfl

/-- A forced tick of the memory manager always takes the flush branch: the
recording flag survives, the queue is drained, and on a normal return the
estimate is reset to the baseline measurement. -/
lemma manage_now_facts (r : Recorder) (d : Disk) :
    (_manage_record r d true).r._rec = r._rec ∧
    (_manage_record r d true).r.q = [] ∧
    (_manage_record r d true).r.partition_ctr =
      (_save { r with q := [] } d (fuse_recording_q r.block_size r.q)).r.partition_ctr ∧
    ((_manage_record r d true).err = none →
      (_manage_record r d true).r.mem_size = r.mem_baseline) := by
  have hs := save_preserves { r with q := [] } d (fuse_recording_q r.block_size r.q)
  unfold _manage_record manageAfterSave
  simp only [Bool.or_true, if_true]
  split
  · exact ⟨hs.2.2.2.1, hs.2.2.1, rfl, fun hc => Option.noConfusion hc⟩
  · exact ⟨hs.2.2.2.1, hs.2.2.1, rfl, fun _ => hs.2.1⟩

/-! Claim theorems. -/

/-- Claim C1: the claim asserts the fused buffer is exactly the blocks
concatenated contiguously in FIFO order with no extra rows between
consecutive blocks.  The code preserves FIFO order but writes at stride
`block_size + 1`, leaving one zero row after every block: with block size 2,
fusing the two blocks `[1, 1]` and `[2, 2]` yields the six-row buffer
`[1, 1, 0, 2, 2, 0]`, not the four-row contiguous concatenation
`[1, 1, 2, 2]`. -/
theorem claim_C1_gap_row :
    fuse_recording_q 2 [QBlock.good [1, 1], QBlock.good [2, 2]] =
      some [1, 1, 0, 2, 2, 0] ∧
    fuse_recording_q 2 [QBlock.good [1, 1], QBlock.good [2, 2]] ≠
      some ([1, 1] ++ [2, 2]) := by
  exact ⟨by decide, by decide⟩

/-- Claim C2 (counterexample): a recording session whose final forced flush
raises (target rec/out.xyz has no supported suffix and the fallback path
rec/out.wav already exists) ends with `is_recording` false but with the
memory estimate still at 140, not reset to the baseline 100 — the claim that
stopping always restores the baseline estimate is false on the code. -/
theorem claim_C2_counterexample :
    is_recording cexC2r = true ∧
    cexC2r.mem_baseline = 100 ∧
    is_recording (stop_recording cexC2r cexC2d).r = false ∧
    (stop_recording cexC2r cexC2d).r.mem_size = 140 ∧
    (stop_recording cexC2r cexC2d).r.mem_size ≠ cexC2r.mem_baseline := by
  exact ⟨rfl, rfl, by decide, by decide, by decide⟩

/-- Claim C2 (amended): stopping an active session always clears the
recording flag, makes the elapsed-time query return the sentinel -1 and
leaves the queue fully drained; and whenever the forced flush raises no
exception, the memory estimate is reset exactly to the pre-session
baseline. -/
theorem claim_C2_stop_flush (r : Recorder) (d : Disk) (h : r._rec = true) :
    is_recording (stop_recording r d).r = false ∧
    get_rec_time (stop_recording r d).r = -1 ∧
    (stop_recording r d).r.q = [] ∧
    ((stop_recording r d).err = none →
      (stop_recording r d).r.mem_size = r.mem_baseline) := by
  have hm := manage_now_facts { r with _rec := false } d
  unfold stop_recording stopAfterManage
  rw [h]
  simp only [if_true]
  split
  · rename_i e heq
    refine ⟨hm.1, ?_, hm.2.1, fun hc => Option.noConfusion hc⟩
    unfold get_rec_time
    rw [show (_manage_record { r with _rec := false } d true).r._rec = false from hm.1]
    rfl
  · rename_i heq
    refine ⟨hm.1, ?_, hm.2.1, fun _ => hm.2.2.2 heq⟩
    unfold get_rec_time
    rw [show (_manage_record { r with _rec := false } d true).r._rec = false from hm.1]
    rfl

/-- Claim C2 (witness): stopping an active session with no target path
succeeds, clears the recording flag, returns the sentinel elapsed time,
drains the queue and restores the baseline estimate. -/
theorem claim_C2_stop_flush_witness :
    is_recording (stop_recording wActive ⟨[]⟩).r = false ∧
    get_rec_time (stop_recording wActive ⟨[]⟩).r = -1 ∧
    (stop_recording wActive ⟨[]⟩).r.q = [] ∧
    (stop_recording wActive ⟨[]⟩).r.mem_size = wActive.mem_baseline := by
  have h := claim_C2_stop_flush wActive ⟨[]⟩ rfl
  exact ⟨h.1, h.2.1, h.2.2.1, h.2.2.2 (by decide)⟩

/-- Claim C3: with partitioning enabled `_save` always creates a new file and
the generated names are pairwise distinct across flushes, but the name is
built without a path separator between the directory and the stem
(`str(parent) + stem + "(ctr)" + suffix`), so for target rec/out.wav the
zero-based partition files are named `recout(0).wav`, `recout(1).wav`, ...,
not the well-formed `rec/out(0).wav` the claim describes. -/
theorem claim_C3_partition_naming :
    (_save cexC3r ⟨[]⟩ (some [7, 7])).err = none ∧
    (_save cexC3r ⟨[]⟩ (some [7, 7])).disk.files = [("recout(0).wav", [7, 7])] ∧
    (_save (_save cexC3r ⟨[]⟩ (some [7, 7])).r (_save cexC3r ⟨[]⟩ (some [7, 7])).disk
        (some [8, 8])).disk.files =
      [("recout(1).wav", [8, 8]), ("recout(0).wav", [7, 7])] ∧
    ("recout(0).wav" : String) ≠ partitionPathSpec ⟨"rec", "out", ".wav"⟩ 0 ∧
    ("recout(1).wav" : String) ≠ "recout(0).wav" := by
  exact ⟨by decide, by decide, by decide, by decide, by decide⟩

/-- Claim C4: on an unsupported suffix `_save` does warn, rewrite the suffix
to the default format and refuse to write when the rewritten path already
exists — but the exception it raises is not an AlreadyExists-style IOError:
building the IOError message fails first (its template names the replacement
field sf while `format` receives one positional argument), so a bare
`KeyError` propagates.  No file is written or overwritten. -/
theorem claim_C4_fallback_keyerror :
    (_save cexC4r cexC4d (some [1])).warned = true ∧
    (_save cexC4r cexC4d (some [1])).r.filepath = some ⟨"rec", "out", ".wav"⟩ ∧
    (_save cexC4r cexC4d (some [1])).err = some SaveErr.keyErrorSf ∧
    (_save cexC4r cexC4d (some [1])).disk = cexC4d := by
  exact ⟨by decide, by decide, by decide, by decide⟩

/-- Claim C5 (counterexample): stopping an active partitioned session whose
forced flush wrote partition 0 leaves the partition counter at 1, not back at
its initial value 0 — the claim that `stop_recording` resets the partition
counter is false on the code. -/
theorem claim_C5_counterexample :
    is_recording cexC5r = true ∧
    cexC5r.partition_ctr = 0 ∧
    (initRecorder 2 1 (-1) true 100).partition_ctr = 0 ∧
    (stop_recording cexC5r ⟨[]⟩).err = none ∧
    (stop_recording cexC5r ⟨[]⟩).r.partition_ctr = 1 := by
  exact ⟨rfl, rfl, rfl, by decide, by decide⟩

/-- Claim C5 (amended): when the forced flush of `stop_recording` returns
normally, the elapsed recording time and the last captured block are reset to
their initial values; the partition counter is not reset — it keeps exactly
the value the final flush left behind. -/
theorem claim_C5_stop_reset (r : Recorder) (d : Disk) (h : r._rec = true) :
    ((stop_recording r d).err = none →
      (stop_recording r d).r.rectime = 0 ∧ (stop_recording r d).r.prev_ab = none) ∧
    (stop_recording r d).r.partition_ctr =
      (_manage_record { r with _rec := false } d true).r.partition_ctr := by
  unfold stop_recording stopAfterManage
  rw [h]
  simp only [if_true]
  split
  · exact ⟨fun hc => Option.noConfusion hc, rfl⟩
  · exact ⟨fun _ => ⟨rfl, rfl⟩, rfl⟩

/-- Claim C5 (witness): stopping the one-block partitioned session succeeds
and resets the elapsed time and last block, while the partition counter keeps
the post-flush value. -/
theorem claim_C5_stop_reset_witness :
    (stop_recording cexC5r ⟨[]⟩).r.rectime = 0 ∧
    (stop_recording cexC5r ⟨[]⟩).r.prev_ab = none ∧
    (stop_recording cexC5r ⟨[]⟩).r.partition_ctr =
      (_manage_record { cexC5r with _rec := false } ⟨[]⟩ true).r.partition_ctr := by
  have h := claim_C5_stop_reset cexC5r ⟨[]⟩ rfl
  exact ⟨(h.1 (by decide)).1, (h.1 (by decide)).2, h.2⟩

/-- Claim C6 (counterexample): a tick whose estimate (140) meets the
threshold (0) but whose save raises (unsupported target rec/out.xyz, the
fallback-renamed rec/out.wav already on disk): `_manage_record` returns
neither True nor False — the exception propagates — and the estimate is left
at 140, not reset to the baseline 100, so the claimed equivalence fails on
the code. -/
theorem claim_C6_counterexample :
    (decide ((cexC6r.mem_size : Int) ≥ cexC6r.max_memory) || false) = true ∧
    (_manage_record cexC6r cexC6d false).ret ≠ some true ∧
    (_manage_record cexC6r cexC6d false).ret ≠ some false ∧
    (_manage_record cexC6r cexC6d false).err = some SaveErr.keyErrorSf ∧
    (_manage_record cexC6r cexC6d false).r.mem_size = cexC6r.mem_size ∧
    (_manage_record cexC6r cexC6d false).r.mem_size ≠ cexC6r.mem_baseline := by
  exact ⟨by decide, by decide, by decide, by decide, by decide, by decide⟩

/-- Claim C6 (amended): `_manage_record` takes the flush branch exactly when
the running estimate meets or exceeds the threshold or the forced flag is
set.  When the branch is not taken it returns False and leaves the recorder
and the disk completely unchanged.  When it is taken and the save returns
normally, it returns True, has drained the queue, written through the save
path and reset the estimate to the baseline; when the save raises instead,
nothing is returned — the exception propagates — and the estimate is left
unchanged. -/
theorem claim_C6_manage_record (r : Recorder) (d : Disk) (now : Bool) :
    ((decide ((r.mem_size : Int) ≥ r.max_memory) || now) = false →
      _manage_record r d now = ⟨some false, false, r, d, none⟩) ∧
    ((decide ((r.mem_size : Int) ≥ r.max_memory) || now) = true →
      (_manage_record r d now).err = none →
      (_manage_record r d now).ret = some true ∧
      (_manage_record r d now).r.mem_size = r.mem_baseline ∧
      (_manage_record r d now).r.q = [] ∧
      (_manage_record r d now).disk =
        (_save { r with q := [] } d (fuse_recording_q r.block_size r.q)).disk) ∧
    ((decide ((r.mem_size : Int) ≥ r.max_memory) || now) = true →
      ∀ e, (_manage_record r d now).err = some e →
        (_manage_record r d now).ret = none ∧
        (_manage_record r d now).r.mem_size = r.mem_size) ∧
    ((_manage_record r d now).ret = some true →
      (decide ((r.mem_size : Int) ≥ r.max_memory) || now) = true) := by
  have hs := save_preserves { r with q := [] } d (fuse_recording_q r.block_size r.q)
  refine ⟨?_, ?_, ?_, ?_⟩
  · intro hc
    unfold _manage_record
    rw [hc]
    rfl
  · intro hc herr
    unfold _manage_record manageAfterSave at herr ⊢
    rw [hc] at herr ⊢
    simp only [if_true] at herr ⊢
    revert herr
    split
    · intro herr
      exact absurd herr (by simp)
    · intro _
      exact ⟨rfl, hs.2.1, hs.2.2.1, rfl⟩
  · intro hc e herr
    unfold _manage_record manageAfterSave at herr ⊢
    rw [hc] at herr ⊢
    simp only [if_true] at herr ⊢
    revert herr
    split
    · intro _
      exact ⟨rfl, hs.1⟩
    · intro herr
      exact absurd herr (by simp)
  · intro hret
    cases hcond : (decide ((r.mem_size : Int) ≥ r.max_memory) || now) with
    | true => rfl
    | false =>
      unfold _manage_record at hret
      rw [hcond] at hret
      simp at hret

/-- Claim C6 (witness): with the estimate 100 over the threshold 0 the tick
flushes and resets the estimate; with the estimate 100 under the threshold
200 the tick returns False and changes nothing; on the raising-save state the
tick returns nothing and keeps the estimate. -/
theorem claim_C6_manage_record_witness :
    _manage_record wUnderThreshold ⟨[]⟩ false =
      ⟨some false, false, wUnderThreshold, ⟨[]⟩, none⟩ ∧
    (_manage_record wOverThreshold ⟨[]⟩ false).ret = some true ∧
    (_manage_record wOverThreshold ⟨[]⟩ false).r.mem_size =
      wOverThreshold.mem_baseline ∧
    (_manage_record cexC6r cexC6d false).ret = none ∧
    (_manage_record cexC6r cexC6d false).r.mem_size = cexC6r.mem_size := by
  refine ⟨(claim_C6_manage_record wUnderThreshold ⟨[]⟩ false).1 (by decide),
    ?_, ?_, ?_, ?_⟩
  · exact ((claim_C6_manage_record wOverThreshold ⟨[]⟩ false).2.1
      (by decide) (by decide)).1
  · exact ((claim_C6_manage_record wOverThreshold ⟨[]⟩ false).2.1
      (by decide) (by decide)).2.1
  · exact ((claim_C6_manage_record cexC6r cexC6d false).2.2.1
      (by decide) SaveErr.keyErrorSf (by decide)).1
  · exact ((claim_C6_manage_record cexC6r cexC6d false).2.2.1
      (by decide) SaveErr.keyErrorSf (by decide)).2

set_option maxRecDepth 100000 in
/-- Claim C7 (counterexample): with the default block length 0.05 the float
accumulation of `_rectime` drifts: the third callback does not advance the
elapsed time by exactly one block length, and after six callbacks the
elapsed time (the double 0.3) differs from six times the block length, so
the exact-advance claim fails on the code. -/
theorem claim_C7_counterexample :
    (_record_callback (run_callbacks cexC7r (cexC7blocks.take 2)) [5] 40
        false).rectime ≠
      (run_callbacks cexC7r (cexC7blocks.take 2)).rectime + cexC7r.block_length ∧
    (run_callbacks cexC7r cexC7blocks).rectime = 5404319552844595 / 2 ^ 54 ∧
    cexC7r.rectime + (cexC7blocks.length : ℚ) * cexC7r.block_length =
      10808639105689191 / 2 ^ 55 ∧
    (run_callbacks cexC7r cexC7blocks).rectime ≠
      cexC7r.rectime + (cexC7blocks.length : ℚ) * cexC7r.block_length := by
  exact ⟨by decide, by decide, by decide, by decide⟩

/-- Claim C7 (amended): every capture callback stores the incoming block as
the last captured block, appends it to the sound block queue, and advances
the elapsed time by one binary64 float addition of the block length — after
N callbacks the elapsed time is the N-fold float accumulation of the block
length, which can drift from exactly N times the block length — and the
driver status flag changes nothing of this bookkeeping. -/
theorem claim_C7_record_callback (r : Recorder) (indata : List Int) (sz : Nat)
    (st : Bool) (blocks : List (List Int × Nat)) :
    (_record_callback r indata sz st).prev_ab = some indata ∧
    (_record_callback r indata sz st).q = r.q ++ [QBlock.good indata] ∧
    (_record_callback r indata sz st).rectime = fadd64 r.rectime r.block_length ∧
    _record_callback r indata sz true = _record_callback r indata sz false ∧
    (run_callbacks r blocks).rectime =
      (fun t => fadd64 t r.block_length)^[blocks.length] r.rectime := by
  exact ⟨rfl, rfl, rfl, rfl, run_callbacks_rectime blocks r⟩

/-- Claim C8: starting while already recording and stopping while idle are
exact no-ops — no error, and every recorder field (and the disk) is left
unchanged. -/
theorem claim_C8_noop (r : Recorder) (fp : Option FPath) (mt : ℚ) (d : Disk) :
    (r._rec = true → start_recording r fp mt = r) ∧
    (r._rec = false → stop_recording r d = ⟨r, d, false, none⟩) := by
  constructor
  · intro h
    unfold start_recording
    rw [h]
    simp only [if_true]
  · intro h
    unfold stop_recording
    rw [h]
    simp only [Bool.false_eq_true, if_false]

/-- Claim C8 (witness): the no-ops evaluated on an active and on an idle
recorder. -/
theorem claim_C8_noop_witness :
    start_recording wActive (some ⟨"rec", "out", ".wav"⟩) 3 = wActive ∧
    stop_recording wIdle ⟨[]⟩ = ⟨wIdle, ⟨[]⟩, false, none⟩ := by
  exact ⟨(claim_C8_noop wActive (some ⟨"rec", "out", ".wav"⟩) 3 ⟨[]⟩).1 rfl,
    (claim_C8_noop wIdle none 0 ⟨[]⟩).2 rfl⟩

/-- Claim C9: in every reachable state the memory estimate is at least the
positive baseline measured at construction (in particular it is never zero);
it starts at exactly the baseline, every capture callback strictly increases
it, and a flush that returns True resets it exactly to the baseline. -/
theorem claim_C9_mem_invariant (samplerate : Nat) (block_len : ℚ) (mm : Int)
    (part : Bool) (baseline : Nat) (d0 : Disk) (s : Recorder × Disk)
    (hb : 0 < baseline)
    (hreach : Reach (initRecorder samplerate block_len mm part baseline, d0) s) :
    get_sq_mem (initRecorder samplerate block_len mm part baseline) = baseline ∧
    baseline ≤ get_sq_mem s.1 ∧
    get_sq_mem s.1 ≠ 0 ∧
    (∀ (r : Recorder) (indata : List Int) (sz : Nat) (st : Bool), 0 < sz →
      get_sq_mem r < get_sq_mem (_record_callback r indata sz st)) ∧
    (∀ (r : Recorder) (d : Disk) (now : Bool),
      (_manage_record r d now).ret = some true →
      (_manage_record r d now).r.mem_size = r.mem_baseline) := by
  have hinv : MemInv baseline s :=
    reach_memInv baseline _ s hreach ⟨rfl, le_refl baseline⟩
  refine ⟨rfl, hinv.2, ?_, ?_, ?_⟩
  · have := hinv.2
    unfold get_sq_mem at *
    omega
  · intro r indata sz st hsz
    show r.mem_size < r.mem_size + sz
    omega
  · intro r d now hret
    have hs := save_preserves { r with q := [] } d (fuse_recording_q r.block_size r.q)
    unfold _manage_record manageAfterSave at hret ⊢
    revert hret
    split
    · split
      · intro hret
        exact absurd hret (by simp)
      · intro _
        exact hs.2.1
    · intro hret
      exact absurd hret (by simp)

/-- Claim C9 (witness): the invariant evaluated on a freshly constructed
recorder with baseline 100. -/
theorem claim_C9_mem_invariant_witness :
    get_sq_mem (initRecorder 2 1 (-1) false 100) = 100 ∧
    get_sq_mem (initRecorder 2 1 (-1) false 100) ≠ 0 := by
  have h := claim_C9_mem_invariant 2 1 (-1) false 100 ⟨[]⟩
    (initRecorder 2 1 (-1) false 100, ⟨[]⟩) (by decide) Reach.refl
  exact ⟨h.1, h.2.2.1⟩

/-- Claim C10: when extracting a block fails, the copy loop skips it without
advancing the write pointer: the fused buffer is the successfully extracted
blocks in FIFO order (each followed by its one gap row) packed at the front,
while the buffer keeps its full preallocated `(block_size + 1) * nblocks` row
count, the unfilled trailing rows staying zero. -/
theorem claim_C10_fuse_skip (bs : Nat) (q : List QBlock)
    (hlen : ∀ d, QBlock.good d ∈ q → d.length = bs) (hne : q ≠ []) :
    fuse_recording_q bs q =
      some (gapJoin (goodDatas q) ++
        List.replicate ((bs + 1) * (q.length - (goodDatas q).length)) 0) ∧
    ∀ buf, fuse_recording_q bs q = some buf →
      buf.length = (bs + 1) * q.length := by
  have hq : q.isEmpty = false := by
    cases q with
    | nil => exact absurd rfl hne
    | cons b rest => rfl
  have hmain : fuse_recording_q bs q =
      some (gapJoin (goodDatas q) ++
        List.replicate ((bs + 1) * (q.length - (goodDatas q).length)) 0) := by
    unfold fuse_recording_q
    rw [hq]
    simp only [Bool.false_eq_true, if_false]
    have h0 := fuseLoop_structure bs q [] 0 hlen
    simp only [List.length_nil, List.nil_append, Nat.add_zero] at h0
    rw [h0]
  refine ⟨hmain, ?_⟩
  intro buf hbuf
  rw [hmain] at hbuf
  have hbeq := Option.some.inj hbuf
  rw [← hbeq, List.length_append,
    gapJoin_length bs (goodDatas q) (fun e he => hlen e (mem_goodDatas q e he)),
    List.length_replicate]
  have hk := goodDatas_length_le q
  rw [← Nat.mul_add]
  congr 1
  omega

/-- Claim C10 (witness): fusing a good block, a failing block and another
good block with block size 1 packs the two good blocks at the front and
leaves the trailing rows zero, in a buffer of the full six rows. -/
theorem claim_C10_fuse_skip_witness :
    fuse_recording_q 1 [QBlock.good [4], QBlock.bad, QBlock.good [6]] =
      some [4, 0, 6, 0, 0, 0] := by
  have h := claim_C10_fuse_skip 1 [QBlock.good [4], QBlock.bad, QBlock.good [6]]
    (by
      intro d hd
      simp only [List.mem_cons, List.not_mem_nil, or_false] at hd
      rcases hd with h1 | h1 | h1
      · cases h1; rfl
      · exact QBlock.noConfusion h1
      · cases h1; rfl)
    (by decide)
  exact h.1.trans (by decide)

end Audiomodel
